import Mathlib

set_option autoImplicit false

namespace Wasmer

/-!
A shallow embedding of the core embedder-facing surface of the wasmer
runtime (`lib/api/src/externals.rs`, `lib/api/src/module.rs`,
`lib/engine-jit/src/module.rs`, `lib/runtime-c-api/src/memory.rs`).

Machine integers are modelled as `Nat` bit patterns with explicit
`% 2 ^ w` where wrap-around matters.  Fallible Rust code returns
`Except`/`Option`; a Rust `panic!`/`unimplemented!` is modelled as the
`none` of an enclosing `Option`.  Definitions whose Rust source is not
part of this excerpt (the `types.rs` value helpers and the engine-side
runtime table) are modelled from the specification and say so in their
doc comments.
-/

/-- Value types (spec §3): parameters and results are drawn from
`{I32, I64, F32, F64, FuncRef, ExternRef}`; V128 is out of scope. -/
inductive ValType where
  | i32
  | i64
  | f32
  | f64
  | funcRef
  | externRef
deriving DecidableEq

/-- Width in bits of the numeric types, used by the 16-byte-slot marshalling. -/
def ValType.width : ValType → Nat
  | .i32 => 32
  | .i64 => 64
  | .f32 => 32
  | .f64 => 64
  | .funcRef => 64
  | .externRef => 64

/-- Whether the type is one of the four numeric types. -/
def ValType.isNum : ValType → Bool
  | .i32 => true
  | .i64 => true
  | .f32 => true
  | .f64 => true
  | _ => false

/-- Display string for a value type (used only inside error messages). -/
def ValType.str : ValType → String
  | .i32 => "I32"
  | .i64 => "I64"
  | .f32 => "F32"
  | .f64 => "F64"
  | .funcRef => "FuncRef"
  | .externRef => "ExternRef"

/-- Global mutability (`wasmer::Mutability`). -/
inductive Mutability where
  | const
  | var
deriving DecidableEq

/-- Stores are identity-compared (`Store::same`); an id is all the model needs. -/
abbrev StoreId := Nat

/-- The part of an api `Function` a funcref value needs to carry for the
cross-store discipline: the identity of its owning `Store`. -/
structure FuncHandle where
  store : StoreId
deriving DecidableEq

/-- Modelled from the spec (§3 Signature): ordered parameter and result types. -/
structure FunctionType where
  params : List ValType
  results : List ValType
deriving DecidableEq

/-- Modelled from the spec (types.rs is not part of the excerpt): an embedder
value.  Floats are carried as raw bit patterns — the runtime only moves them,
it never computes with them — and integers likewise as `Nat` bit patterns. -/
inductive Val where
  | i32 (bits : Nat)
  | i64 (bits : Nat)
  | f32 (bits : Nat)
  | f64 (bits : Nat)
  | funcRef (f : Option FuncHandle)
deriving DecidableEq

/-- The type of a value. -/
def Val.ty : Val → ValType
  | .i32 _ => .i32
  | .i64 _ => .i64
  | .f32 _ => .f32
  | .f64 _ => .f64
  | .funcRef _ => .funcRef

/-- `Val::null()`: the null function reference. -/
def Val.null : Val := .funcRef none

/-- Whether the value is one of the four numeric variants. -/
def Val.isNum (v : Val) : Bool := v.ty.isNum

/-- Bit patterns fit the declared width (automatic for Rust's fixed-width
integers, stated explicitly for the `Nat` model). -/
def Val.wf : Val → Bool
  | .i32 b => b < 2 ^ 32
  | .i64 b => b < 2 ^ 64
  | .f32 b => b < 2 ^ 32
  | .f64 b => b < 2 ^ 64
  | .funcRef _ => true

/-- Modelled from the spec (§7, types.rs not in the excerpt): only function
references are tied to a `Store`; numeric values belong to every store. -/
def Val.comes_from_same_store (v : Val) (store : StoreId) : Bool :=
  match v with
  | .funcRef (some f) => f.store == store
  | _ => true

/-- Debug rendering of a value's variant, used only inside error messages. -/
def Val.describe : Val → String
  | .i32 _ => "I32"
  | .i64 _ => "I64"
  | .f32 _ => "F32"
  | .f64 _ => "F64"
  | .funcRef _ => "FuncRef"

/-- Trap codes surfaced through `RuntimeError::from_trap`. -/
inductive Trap where
  | tableAccessOutOfBounds
  | generic (msg : String)
deriving DecidableEq

/-- `RuntimeError` (spec §7): either a user error built by `RuntimeError::new`
or a trap converted by `RuntimeError::from_trap`. -/
inductive RuntimeError where
  | user (msg : String)
  | trap (t : Trap)
deriving DecidableEq

/-! ## 16-byte value slots

`VMGlobalDefinition` and the trampoline `values_vec` are 16-byte unions the
Rust code reinterprets through typed pointers.  A slot is a 128-bit pattern,
modelled as a `Nat`; writing a `w`-bit value replaces the low `w` bits. -/

/-- Replace the low `w` bits of `slot` with `x` (a `w`-bit typed store). -/
def setLow (w slot x : Nat) : Nat :=
  slot - slot % 2 ^ w + x % 2 ^ w

/-- Read the low `w` bits of `slot` (a `w`-bit typed load). -/
def getLow (w slot : Nat) : Nat :=
  slot % 2 ^ w

/-! ## Global (`lib/api/src/externals.rs`) -/

/-- `GlobalType`: a value type plus a mutability flag. -/
structure GlobalType where
  ty : ValType
  mutability : Mutability
deriving DecidableEq

/-- The api `Global`: its `Store`, the declared type (`exported.global`) and
the leaked `VMGlobalDefinition` storage (`exported.definition`), a 16-byte
union modelled as a 128-bit pattern. -/
structure Global where
  store : StoreId
  global : GlobalType
  definition : Nat
deriving DecidableEq

/-- `Global::ty`. -/
def Global.ty (g : Global) : GlobalType := g.global

/-- `Global::from_type`: reject cross-store values, then write the initial
value into a fresh zeroed `VMGlobalDefinition`; non-numeric initial values
are rejected with a `create_global` error. -/
def Global.from_type (store : StoreId) (ty : GlobalType) (val : Val) :
    Except RuntimeError Global :=
  if ¬ val.comes_from_same_store store then
    .error (.user "cross-`Store` globals are not supported")
  else
    match val with
    | .i32 x => .ok ⟨store, ty, setLow 32 0 x⟩
    | .i64 x => .ok ⟨store, ty, setLow 64 0 x⟩
    | .f32 x => .ok ⟨store, ty, setLow 32 0 x⟩
    | .f64 x => .ok ⟨store, ty, setLow 64 0 x⟩
    | v => .error (.user ("create_global for " ++ v.describe))

/-- `Global::new`: `from_type` with a constant type, then `unwrap()`;
`none` models the panic of the `unwrap`. -/
def Global.new (store : StoreId) (val : Val) : Option Global :=
  (Global.from_type store ⟨val.ty, .const⟩ val).toOption

/-- `Global::new_mut`: `from_type` with a mutable type, then `unwrap()`. -/
def Global.new_mut (store : StoreId) (val : Val) : Option Global :=
  (Global.from_type store ⟨val.ty, .var⟩ val).toOption

/-- `Global::get`: read the definition through the declared type; the
`unimplemented!` arm for non-numeric types is the `none` case. -/
def Global.get (g : Global) : Option Val :=
  match g.ty.ty with
  | .i32 => some (.i32 (getLow 32 g.definition))
  | .i64 => some (.i64 (getLow 64 g.definition))
  | .f32 => some (.f32 (getLow 32 g.definition))
  | .f64 => some (.f64 (getLow 64 g.definition))
  | _ => none

/-- `Global::set`: mutability, then type, then store check, then the typed
store into the definition.  The result carries the outcome and the global's
state afterwards; `none` models the `unimplemented!` panic of the final
match. -/
def Global.set (g : Global) (val : Val) :
    Option (Except RuntimeError Unit × Global) :=
  if g.ty.mutability ≠ .var then
    some (.error (.user "immutable global cannot be set"), g)
  else if val.ty ≠ g.ty.ty then
    some (.error (.user ("global of type " ++ g.ty.ty.str ++
      " cannot be set to " ++ val.ty.str)), g)
  else if ¬ val.comes_from_same_store g.store then
    some (.error (.user "cross-`Store` values are not supported"), g)
  else
    match val with
    | .i32 x => some (.ok (), { g with definition := setLow 32 g.definition x })
    | .i64 x => some (.ok (), { g with definition := setLow 64 g.definition x })
    | .f32 x => some (.ok (), { g with definition := setLow 32 g.definition x })
    | .f64 x => some (.ok (), { g with definition := setLow 64 g.definition x })
    | _ => none

/-! ## Value marshalling (§4.7 call bridge)

`Val::write_value_to` / `Val::read_value_from` move a value in and out of a
16-byte slot; modelled from the spec (types.rs is not in the excerpt), with
the §8 round-trip property as the contract. -/

/-- Encoding of a (possibly null) function reference as a slot pattern. -/
def FuncHandle.encode : Option FuncHandle → Nat
  | none => 0
  | some f => f.store + 1

/-- Inverse of `FuncHandle.encode`. -/
def FuncHandle.decode : Nat → Option FuncHandle
  | 0 => none
  | k + 1 => some ⟨k⟩

/-- Modelled from the spec (§4.7): store a value's machine representation
into the low bits of a 16-byte slot. -/
def Val.write_value_to (v : Val) (slot : Nat) : Nat :=
  match v with
  | .i32 b => setLow 32 slot b
  | .i64 b => setLow 64 slot b
  | .f32 b => setLow 32 slot b
  | .f64 b => setLow 64 slot b
  | .funcRef f => setLow 64 slot (FuncHandle.encode f)

/-- Modelled from the spec (§4.7): load a value of the given type from the
low bits of a 16-byte slot. -/
def Val.read_value_from (slot : Nat) (ty : ValType) : Val :=
  match ty with
  | .i32 => .i32 (getLow 32 slot)
  | .i64 => .i64 (getLow 64 slot)
  | .f32 => .f32 (getLow 32 slot)
  | .f64 => .f64 (getLow 64 slot)
  | .funcRef => .funcRef (FuncHandle.decode (getLow 64 slot))
  | .externRef => .funcRef (FuncHandle.decode (getLow 64 slot))

/-! ## Function (`lib/api/src/externals.rs`) -/

/-- `FunctionDefinition`: where the function's body lives.  The Wasm variant
carries a trampoline pointer in the source; the trampoline's behaviour is
supplied as an oracle at call time in the model (it is generated machine
code, outside the embedding). -/
inductive FunctionDefinition where
  | wasm
  | host
deriving DecidableEq

/-- The api `Function`: its `Store`, where it is defined, and its signature
(the source stores a registry index and resolves it through
`Engine::lookup_signature`; the model carries the resolved type). -/
structure Function where
  store : StoreId
  definition : FunctionDefinition
  sig : FunctionType
deriving DecidableEq

/-- Behaviour of a forward trampoline plus callee (`wasmer_call_trampoline`):
it transforms the value array and may trap. -/
abbrev TrampolineOracle := List Nat → Except Trap (List Nat)

/-- The parameter-marshalling loop of `Function::call_wasm`: walk the
arguments together with the signature's parameter types, reject the first
argument whose type differs from its slot's declared type, and write each
accepted argument into its slot. -/
def writeParams : List Val → List ValType → List Nat → Nat →
    Except RuntimeError (List Nat)
  | [], _, vec, _ => .ok vec
  | _, [], vec, _ => .ok vec
  | p :: ps, ty :: tys, vec, i =>
    if p.ty ≠ ty then
      .error (.user "Parameters did not match signature")
    else
      writeParams ps tys (vec.set i (p.write_value_to (vec.getD i 0))) (i + 1)

/-- `Function::call_wasm`: check the parameter count, the result-slot count
and each parameter's type, marshal the arguments into a zeroed value array of
length `max(params, results)`, invoke the trampoline, and read the results
back.  The boolean records whether the trampoline was invoked. -/
def Function.call_wasm (tramp : TrampolineOracle) (f : Function)
    (params results : List Val) : Except RuntimeError (List Val) × Bool :=
  let signature := f.sig
  if signature.params.length ≠ params.length then
    (.error (.user "expected arguments did not match signature"), false)
  else if signature.results.length ≠ results.length then
    (.error (.user "expected results did not match signature"), false)
  else
    match writeParams params signature.params
        (List.replicate (max params.length results.length) 0) 0 with
    | .error e => (.error e, false)
    | .ok vec =>
      match tramp vec with
      | .error trap => (.error (.trap trap), true)
      | .ok vec2 =>
        (.ok (signature.results.enum.map fun p =>
          Val.read_value_from (vec2.getD p.1 0) p.2), true)

/-- `Function::call`: allocate null result slots, then dispatch on where the
function is defined.  The host arm of the source is the empty match arm
`_ => {}` (its `unimplemented!` is commented out), so a host-defined function
returns the untouched null results without invoking anything; the boolean
records whether any callee was invoked. -/
def Function.call (tramp : TrampolineOracle) (f : Function) (params : List Val) :
    Except RuntimeError (List Val) × Bool :=
  let results := List.replicate f.sig.results.length Val.null
  match f.definition with
  | .wasm => Function.call_wasm tramp f params results
  | .host => (.ok results, false)

/-! ## Reverse trampoline (`VMDynamicFunctionImportContext::func_wrapper`) -/

/-- Argument materialisation of the reverse trampoline: read one value per
parameter type from the value array. -/
def readArgs (tys : List ValType) (vec : List Nat) : List Val :=
  tys.enum.map fun p => Val.read_value_from (vec.getD p.1 0) p.2

/-- The return-writing loop of the reverse trampoline: write the i-th return
value into the i-th slot. -/
def writeReturns : List Val → List Nat → Nat → List Nat
  | [], vec, _ => vec
  | r :: rs, vec, i => writeReturns rs (vec.set i (r.write_value_to (vec.getD i 0))) (i + 1)

/-- Outcome of the reverse trampoline: a normal return with the updated value
array, or a user trap raised through `raise_user_trap`.  (The panic-resume
path is unreachable here because the host callable is modelled as total.) -/
inductive WrapperResult where
  | normal (vec : List Nat)
  | userTrap (e : RuntimeError)
deriving DecidableEq

/-- The wrong-signature message of `func_wrapper`. -/
def wrongSigMsg (expected got : List ValType) : String :=
  "Dynamic function returned wrong signature. Expected " ++
    String.intercalate ", " (expected.map ValType.str) ++ " but got " ++
    String.intercalate ", " (got.map ValType.str)

/-- `func_wrapper`: materialise the arguments from the value array, invoke
the host callable, check the returned values' types against the signature's
results — raising a wrong-signature `RuntimeError` on mismatch — and
otherwise write the returns back and return normally. -/
def func_wrapper (host : List Val → Except RuntimeError (List Val))
    (func_ty : FunctionType) (values_vec : List Nat) : WrapperResult :=
  let args := readArgs func_ty.params values_vec
  match host args with
  | .error trap => .userTrap trap
  | .ok returns =>
    let return_types := returns.map Val.ty
    if return_types ≠ func_ty.results then
      .userTrap (.user (wrongSigMsg func_ty.results return_types))
    else
      .normal (writeReturns returns values_vec 0)

/-! ## Table (`lib/api/src/externals.rs` plus the engine-side table) -/

/-- Checked-anyfunc table item (spec §3): the model keeps the owning store
identity of the referenced function, with `none` for the null anyfunc. -/
abbrev Anyfunc := Option FuncHandle

/-- Modelled from the spec (§4.6 Table, §7; types.rs not in the excerpt):
convert a value into a checked-anyfunc table item, rejecting cross-store
values and values that are not function references. -/
def Val.into_checked_anyfunc (v : Val) (store : StoreId) :
    Except RuntimeError Anyfunc :=
  if ¬ v.comes_from_same_store store then
    .error (.user "cross-`Store` values are not supported")
  else
    match v with
    | .funcRef f => .ok f
    | _ => .error (.user "val is not a function reference")

/-- `ValAnyFunc::from_checked_anyfunc`: a table item read back as a value. -/
def Val.from_checked_anyfunc (item : Anyfunc) : Val := .funcRef item

/-- Modelled from the spec (§2 C10, §8; the engine-side `Table` is not in the
excerpt): a vector of checked-anyfunc elements with an optional maximum.
`grow` appends `delta` null elements and yields the NEW element count — the
convention forced by the spec's §8 fill invariant together with the caller's
`len - (delta - i)` index computation in `Table::grow`. -/
structure RuntimeTable where
  maximum : Option Nat
  elements : List Anyfunc
deriving DecidableEq

/-- Element count of the engine-side table. -/
def RuntimeTable.size (t : RuntimeTable) : Nat := t.elements.length

/-- Modelled from the spec: read an element; out of bounds gives `none`. -/
def RuntimeTable.get (t : RuntimeTable) (i : Nat) : Option Anyfunc :=
  t.elements[i]?

/-- Modelled from the spec: write an element; out of bounds fails. -/
def RuntimeTable.set (t : RuntimeTable) (i : Nat) (item : Anyfunc) :
    Option RuntimeTable :=
  if i < t.elements.length then
    some { t with elements := t.elements.set i item }
  else
    none

/-- Modelled from the spec: append `delta` null elements if the maximum (and
the 32-bit index space) allows it, yielding the new element count. -/
def RuntimeTable.grow (t : RuntimeTable) (delta : Nat) :
    Option (RuntimeTable × Nat) :=
  let new_len := t.size + delta
  if 2 ^ 32 ≤ new_len then
    none
  else if (match t.maximum with | some m => decide (m < new_len) | none => false) then
    none
  else
    some ({ t with elements := t.elements ++ List.replicate delta none }, new_len)

/-- Element-copy loop of the engine-side `Table::copy`. -/
def copyElems (dst : List Anyfunc) (dstIndex : Nat) (src : List Anyfunc)
    (srcIndex : Nat) : Nat → List Anyfunc
  | 0 => dst
  | n + 1 => (copyElems dst dstIndex src srcIndex n).set (dstIndex + n)
      (src.getD (srcIndex + n) none)

/-- Modelled from the spec (§4.6: out-of-bounds ranges produce a trap-formed
error): the engine-side table copy. -/
def RuntimeTable.copy (dst src : RuntimeTable) (dstIndex srcIndex len : Nat) :
    Except Trap (RuntimeTable × RuntimeTable) :=
  if dstIndex + len ≤ dst.size ∧ srcIndex + len ≤ src.size then
    .ok ({ dst with elements := copyElems dst.elements dstIndex src.elements srcIndex len },
      src)
  else
    .error .tableAccessOutOfBounds

/-- The api `Table`: its `Store`, the ownership flag, and the engine-side
table it wraps (`exported.from`). -/
structure Table where
  store : StoreId
  owned_by_store : Bool
  table : RuntimeTable
deriving DecidableEq

/-- `set_table_item`: the engine-side set with its error mapped into a
`RuntimeError`. -/
def set_table_item (table : RuntimeTable) (item_index : Nat) (item : Anyfunc) :
    Except RuntimeError RuntimeTable :=
  match table.set item_index item with
  | some t => .ok t
  | none => .error (.trap .tableAccessOutOfBounds)

/-- `Table::size`. -/
def Table.size (t : Table) : Nat := t.table.size

/-- `Table::get`: read an element and convert it back to a value. -/
def Table.get (t : Table) (i : Nat) : Option Val :=
  match t.table.get i with
  | none => none
  | some item => some (Val.from_checked_anyfunc item)

/-- `Table::set`: convert the value (rejecting cross-store values) and store
it.  The pair carries the outcome and the table afterwards. -/
def Table.set (t : Table) (i : Nat) (v : Val) :
    Except RuntimeError Unit × Table :=
  match v.into_checked_anyfunc t.store with
  | .error e => (.error e, t)
  | .ok item =>
    match set_table_item t.table i item with
    | .ok rt => (.ok (), { t with table := rt })
    | .error e => (.error e, t)

/-- The fill loop of `Table::grow`: `set_table_item` at each index in turn,
stopping at the first error. -/
def fillItems (item : Anyfunc) : RuntimeTable → List Nat → RuntimeTable × Option RuntimeError
  | rt, [] => (rt, none)
  | rt, i :: rest =>
    match set_table_item rt i item with
    | .ok rt2 => fillItems item rt2 rest
    | .error e => (rt, some e)

/-- `Table::grow`: convert the init value (rejecting cross-store values),
grow the engine-side table, fill the indices `len - (delta - i)` for
`i ∈ [0, delta)` with the init item, and return what the engine-side grow
yielded. -/
def Table.grow (t : Table) (delta : Nat) (init : Val) :
    Except RuntimeError Nat × Table :=
  match init.into_checked_anyfunc t.store with
  | .error e => (.error e, t)
  | .ok item =>
    match t.table.grow delta with
    | some (rt, len) =>
      match fillItems item rt ((List.range delta).map fun i => len - (delta - i)) with
      | (rt2, none) => (.ok len, { t with table := rt2 })
      | (rt2, some e) => (.error e, { t with table := rt2 })
    | none => (.error (.user ("failed to grow table by " ++ toString delta)), t)

/-- `Table::copy`: reject cross-store copies, then delegate to the
engine-side copy, converting its trap through `RuntimeError::from_trap`. -/
def Table.copy (dst_table : Table) (dst_index : Nat) (src_table : Table)
    (src_index len : Nat) : Except RuntimeError (Table × Table) :=
  if ¬ (dst_table.store == src_table.store) then
    .error (.user "cross-`Store` table copies are not supported")
  else
    match RuntimeTable.copy dst_table.table src_table.table dst_index src_index len with
    | .ok (d, s) => .ok ({ dst_table with table := d }, { src_table with table := s })
    | .error tr => .error (.trap tr)

/-! ## C-API memory (`lib/runtime-c-api/src/memory.rs`) -/

/-- The old-runtime `Memory` behind the C API: a page count and the backing
bytes (`bytes.length = pages * 65536` for well-formed memories). -/
structure CMemory where
  pages : Nat
  bytes : List Nat
deriving DecidableEq

/-- `wasmer_memory_data_length`: `size().bytes()` cast to `u32`. -/
def wasmer_memory_data_length (mem : CMemory) : Nat :=
  (mem.pages * 65536) % 2 ^ 32

/-- The byte-copy loop of `wasmer_memory_data_copy` (`std::ptr::copy`). -/
def copyBytes (dst : List Nat) (off : Nat) (src : List Nat) : Nat → List Nat
  | 0 => dst
  | n + 1 => (copyBytes dst off src n).set (off + n) (src.getD n 0)

/-- Outcome of `wasmer_memory_data_copy`: the returned status (`true` is
`WASMER_OK`), the memory afterwards, and whether any of the internal `u32`
bounds computations wrapped (an underflow of `buffer_len - 1` or
`data_length - 1`, or an overflow of `mem_offset + (buffer_len - 1)`); the
Rust code would panic there in a debug build and wrap in a release build,
and the model computes the release (wrapping) result. -/
structure CopyOutcome where
  ok : Bool
  mem : CMemory
  arithWrapped : Bool
deriving DecidableEq

/-- `wasmer_memory_data_copy`: compute `last_mem_offset = data_length - 1`
and `last_mem_copy_offset = mem_offset + (buffer_len - 1)` in wrapping `u32`
arithmetic, return `WASMER_ERROR` when the latter exceeds the former, and
otherwise copy `buffer_len` bytes into the memory at `mem_offset`. -/
def wasmer_memory_data_copy (mem : CMemory) (mem_offset : Nat)
    (buffer : List Nat) (buffer_len : Nat) : CopyOutcome :=
  let data_length := wasmer_memory_data_length mem
  let last_mem_offset := (data_length + 2 ^ 32 - 1) % 2 ^ 32
  let t := (buffer_len + 2 ^ 32 - 1) % 2 ^ 32
  let last_mem_copy_offset := (mem_offset + t) % 2 ^ 32
  let wrapped := (data_length == 0) || (buffer_len == 0) ||
    decide (2 ^ 32 ≤ mem_offset + t)
  if last_mem_offset < last_mem_copy_offset then
    ⟨false, mem, wrapped⟩
  else
    ⟨true, { mem with bytes := copyBytes mem.bytes mem_offset buffer buffer_len },
      wrapped⟩

/-! ## Compiled module and api module (`lib/engine-jit/src/module.rs`,
`lib/api/src/module.rs`) -/

/-- The module descriptor (spec §3, C1): of its fields only the optional
module name is needed by the claims settled here; the others (signatures,
imports, exports, memories, tables, globals, segments, start) are omitted. -/
structure ModuleInfo where
  name : Option String
deriving DecidableEq

/-- `SerializableModule` (engine-jit `serialize.rs`): the model keeps the
module descriptor; the compilation artifact, features, data initializers and
plans are omitted — no claim settled here inspects them. -/
structure SerializableModule where
  module : ModuleInfo
deriving DecidableEq

/-- `CompileError` (spec §7), as far as `from_parts` can produce it. -/
inductive CompileError where
  | codegen (msg : String)
  | validate (msg : String)
deriving DecidableEq

/-- `DeserializeError`: the spec's taxonomy (§7) plus the two variants the
engine-jit code actually constructs (`CorruptedBinary`, `Compiler`); the
enum itself lives in `wasmer_engine`, outside the excerpt. -/
inductive DeserializeError where
  | ioError (msg : String)
  | invalidBinary
  | incompatibleVersion
  | generic (msg : String)
  | corruptedBinary (msg : String)
  | compiler (e : CompileError)
deriving DecidableEq

/-- `CompiledModule` (engine-jit): owns the serializable artifact; finished
function pointers, trampolines, shared signatures and the frame-info handle
are engine state outside the embedding. -/
structure CompiledModule where
  serializable : SerializableModule
deriving DecidableEq

/-- `CompiledModule::module`. -/
def CompiledModule.module (m : CompiledModule) : ModuleInfo :=
  m.serializable.module

/-- `CompiledModule::deserialize`: run the (external) bincode decoder over
the bytes, mapping a decode failure to `DeserializeError::CorruptedBinary`,
then `from_parts`, mapping its failure to `DeserializeError::Compiler`.  The
decoder and `from_parts` (whose body is engine allocation, linking and
publication) are taken as parameters. -/
def CompiledModule.deserialize (bincodeDecode : List Nat → Option SerializableModule)
    (fromParts : SerializableModule → Except CompileError CompiledModule)
    (bytes : List Nat) : Except DeserializeError CompiledModule :=
  match bincodeDecode bytes with
  | none => .error (.corruptedBinary "deserialize error")
  | some serializable =>
    match fromParts serializable with
    | .error e => .error (.compiler e)
    | .ok m => .ok m

/-- The api `Module`: a `Store` and the compiled module. -/
structure Module where
  store : StoreId
  compiled : CompiledModule
deriving DecidableEq

/-- `Module::from_compiled_module`. -/
def Module.from_compiled_module (store : StoreId) (compiled : CompiledModule) :
    Module :=
  ⟨store, compiled⟩

/-- `Module::name`: the descriptor's name. -/
def Module.name (m : Module) : Option String :=
  m.compiled.module.name

/-- `Module::set_name`: overwrite the descriptor's name. -/
def Module.set_name (m : Module) (name : String) : Module :=
  { m with compiled := { m.compiled with
      serializable := { m.compiled.serializable with
        module := { m.compiled.serializable.module with name := some name } } } }

/-! # Theorems -/

theorem getLow_setLow (w slot x : Nat) : getLow w (setLow w slot x) = x % 2 ^ w := by
  unfold getLow setLow
  have h := Nat.div_add_mod slot (2 ^ w)
  have h1 : slot - slot % 2 ^ w = 2 ^ w * (slot / 2 ^ w) := by omega
  rw [h1, Nat.mul_add_mod]
  exact Nat.mod_mod_of_dvd x dvd_rfl

/-- C5: `Global::set(v)` errors exactly when the global is immutable (with the
message "immutable global cannot be set"), or the value's type differs from
the declared type, or the value is cross-store; on error the stored value is
unchanged (`get` agrees before and after), and on `Ok` the stored value
becomes `v`.  Stated for globals of numeric type (reference-typed globals are
outside the spec's scope); `set` never panics on such globals. -/
theorem global_set_cases (g : Global) (v : Val)
    (hnum : g.ty.ty.isNum = true) (hwf : v.wf = true) :
    ∃ out, g.set v = some out ∧
      ((∃ e, out.1 = .error e) ↔
        (g.ty.mutability ≠ .var ∨ v.ty ≠ g.ty.ty ∨
          v.comes_from_same_store g.store = false)) ∧
      (g.ty.mutability ≠ .var →
        out.1 = .error (.user "immutable global cannot be set")) ∧
      ((∃ e, out.1 = .error e) → out.2 = g) ∧
      (out.1 = .ok () → out.2.get = some v) := by
  by_cases hmut : g.ty.mutability = Mutability.var
  · by_cases hty : v.ty = g.ty.ty
    · by_cases hst : v.comes_from_same_store g.store = true
      · -- all three checks pass: the typed store happens
        cases v with
        | i32 x =>
          refine ⟨(.ok (), { g with definition := setLow 32 g.definition x }), ?_, ?_, ?_, ?_, ?_⟩
          · simp [Global.set, hmut, hty, hst]
          · simp [hmut, hty, hst]
          · intro h; exact absurd hmut h
          · rintro ⟨e, he⟩; cases he
          · intro _
            have hg : g.ty.ty = ValType.i32 := hty ▸ rfl
            simp only [Global.get, Global.ty] at hg ⊢
            rw [show ({ g with definition := setLow 32 g.definition x } : Global).global = g.global from rfl, hg]
            simp only [getLow_setLow]
            have hx : x < 2 ^ 32 := by simpa [Val.wf] using hwf
            rw [Nat.mod_eq_of_lt hx]
        | i64 x =>
          refine ⟨(.ok (), { g with definition := setLow 64 g.definition x }), ?_, ?_, ?_, ?_, ?_⟩
          · simp [Global.set, hmut, hty, hst]
          · simp [hmut, hty, hst]
          · intro h; exact absurd hmut h
          · rintro ⟨e, he⟩; cases he
          · intro _
            have hg : g.ty.ty = ValType.i64 := hty ▸ rfl
            simp only [Global.get, Global.ty] at hg ⊢
            rw [show ({ g with definition := setLow 64 g.definition x } : Global).global = g.global from rfl, hg]
            simp only [getLow_setLow]
            have hx : x < 2 ^ 64 := by simpa [Val.wf] using hwf
            rw [Nat.mod_eq_of_lt hx]
        | f32 x =>
          refine ⟨(.ok (), { g with definition := setLow 32 g.definition x }), ?_, ?_, ?_, ?_, ?_⟩
          · simp [Global.set, hmut, hty, hst]
          · simp [hmut, hty, hst]
          · intro h; exact absurd hmut h
          · rintro ⟨e, he⟩; cases he
          · intro _
            have hg : g.ty.ty = ValType.f32 := hty ▸ rfl
            simp only [Global.get, Global.ty] at hg ⊢
            rw [show ({ g with definition := setLow 32 g.definition x } : Global).global = g.global from rfl, hg]
            simp only [getLow_setLow]
            have hx : x < 2 ^ 32 := by simpa [Val.wf] using hwf
            rw [Nat.mod_eq_of_lt hx]
        | f64 x =>
          refine ⟨(.ok (), { g with definition := setLow 64 g.definition x }), ?_, ?_, ?_, ?_, ?_⟩
          · simp [Global.set, hmut, hty, hst]
          · simp [hmut, hty, hst]
          · intro h; exact absurd hmut h
          · rintro ⟨e, he⟩; cases he
          · intro _
            have hg : g.ty.ty = ValType.f64 := hty ▸ rfl
            simp only [Global.get, Global.ty] at hg ⊢
            rw [show ({ g with definition := setLow 64 g.definition x } : Global).global = g.global from rfl, hg]
            simp only [getLow_setLow]
            have hx : x < 2 ^ 64 := by simpa [Val.wf] using hwf
            rw [Nat.mod_eq_of_lt hx]
        | funcRef f =>
          exfalso
          have : g.ty.ty = ValType.funcRef := hty ▸ rfl
          rw [this] at hnum
          cases hnum
      · -- cross-store value
        refine ⟨(.error (.user "cross-`Store` values are not supported"), g), ?_, ?_, ?_, ?_, ?_⟩
        · simp [Global.set, hmut, hty, hst]
        · simp [hmut, hty, hst]
        · intro h; exact absurd hmut h
        · intro _; rfl
        · intro h; cases h
    · -- type mismatch
      refine ⟨(.error (.user ("global of type " ++ g.ty.ty.str ++
          " cannot be set to " ++ v.ty.str)), g), ?_, ?_, ?_, ?_, ?_⟩
      · simp [Global.set, hmut, hty]
      · simp [hty]
      · intro h; exact absurd hmut h
      · intro _; rfl
      · intro h; cases h
  · -- immutable global
    refine ⟨(.error (.user "immutable global cannot be set"), g), ?_, ?_, ?_, ?_, ?_⟩
    · simp [Global.set, hmut]
    · simp [hmut]
    · intro _; rfl
    · intro _; rfl
    · intro h; cases h

/-- C5 witness: a concrete mutable i32 global accepts `set(I32(5))`. -/
theorem global_set_cases_witness :
    ∃ out, Global.set ⟨0, ⟨.i32, .var⟩, 0⟩ (.i32 5) = some out ∧
      ((∃ e, out.1 = .error e) ↔
        ((⟨0, ⟨.i32, .var⟩, 0⟩ : Global).ty.mutability ≠ .var ∨
          (Val.i32 5).ty ≠ (⟨0, ⟨.i32, .var⟩, 0⟩ : Global).ty.ty ∨
          (Val.i32 5).comes_from_same_store (⟨0, ⟨.i32, .var⟩, 0⟩ : Global).store = false)) ∧
      ((⟨0, ⟨.i32, .var⟩, 0⟩ : Global).ty.mutability ≠ .var →
        out.1 = .error (.user "immutable global cannot be set")) ∧
      ((∃ e, out.1 = .error e) → out.2 = ⟨0, ⟨.i32, .var⟩, 0⟩) ∧
      (out.1 = .ok () → out.2.get = some (.i32 5)) :=
  global_set_cases ⟨0, ⟨.i32, .var⟩, 0⟩ (.i32 5) (by decide) (by decide)

/-- C8: `Global::from_type` rejects every initial value that is not numeric or
that is cross-store; `Global::new` and `Global::new_mut`, which `unwrap` it,
panic (`none`) on such values; and every global built through these
constructors has a numeric type, on which `Global::get` is total. -/
theorem global_constructors_reject_nonnumeric :
    (∀ store ty val, (val.isNum = false ∨ val.comes_from_same_store store = false) →
      ∃ e, Global.from_type store ty val = .error e) ∧
    (∀ store val, (val.isNum = false ∨ val.comes_from_same_store store = false) →
      Global.new store val = none ∧ Global.new_mut store val = none) ∧
    (∀ store val g, (Global.new store val = some g ∨ Global.new_mut store val = some g) →
      g.ty.ty.isNum = true ∧ (g.get).isSome = true) := by
  have herr : ∀ (store : StoreId) (ty : GlobalType) (val : Val),
      (val.isNum = false ∨ val.comes_from_same_store store = false) →
      ∃ e, Global.from_type store ty val = .error e := by
    intro store ty val h
    by_cases hst : val.comes_from_same_store store = true
    · have hnum : val.isNum = false := by
        rcases h with h | h
        · exact h
        · rw [hst] at h; cases h
      cases val with
      | i32 x => simp [Val.isNum, Val.ty, ValType.isNum] at hnum
      | i64 x => simp [Val.isNum, Val.ty, ValType.isNum] at hnum
      | f32 x => simp [Val.isNum, Val.ty, ValType.isNum] at hnum
      | f64 x => simp [Val.isNum, Val.ty, ValType.isNum] at hnum
      | funcRef f =>
        exact ⟨.user ("create_global for " ++ (Val.funcRef f).describe), by
          simp [Global.from_type, hst]⟩
    · exact ⟨.user "cross-`Store` globals are not supported", by
        simp [Global.from_type, hst]⟩
  refine ⟨herr, ?_, ?_⟩
  · intro store val h
    constructor
    · obtain ⟨e, he⟩ := herr store ⟨val.ty, .const⟩ val h
      simp [Global.new, he, Except.toOption]
    · obtain ⟨e, he⟩ := herr store ⟨val.ty, .var⟩ val h
      simp [Global.new_mut, he, Except.toOption]
  · intro store val g h
    have hty : g.ty.ty = val.ty ∧ val.isNum = true := by
      rcases h with h | h
      · cases val with
        | i32 x =>
          simp [Global.new, Global.from_type, Except.toOption, Val.comes_from_same_store] at h
          exact ⟨by rw [← h]; rfl, rfl⟩
        | i64 x =>
          simp [Global.new, Global.from_type, Except.toOption, Val.comes_from_same_store] at h
          exact ⟨by rw [← h]; rfl, rfl⟩
        | f32 x =>
          simp [Global.new, Global.from_type, Except.toOption, Val.comes_from_same_store] at h
          exact ⟨by rw [← h]; rfl, rfl⟩
        | f64 x =>
          simp [Global.new, Global.from_type, Except.toOption, Val.comes_from_same_store] at h
          exact ⟨by rw [← h]; rfl, rfl⟩
        | funcRef f =>
          by_cases hst : (Val.funcRef f).comes_from_same_store store = true <;>
            simp [Global.new, Global.from_type, Except.toOption, hst] at h
      · cases val with
        | i32 x =>
          simp [Global.new_mut, Global.from_type, Except.toOption, Val.comes_from_same_store] at h
          exact ⟨by rw [← h]; rfl, rfl⟩
        | i64 x =>
          simp [Global.new_mut, Global.from_type, Except.toOption, Val.comes_from_same_store] at h
          exact ⟨by rw [← h]; rfl, rfl⟩
        | f32 x =>
          simp [Global.new_mut, Global.from_type, Except.toOption, Val.comes_from_same_store] at h
          exact ⟨by rw [← h]; rfl, rfl⟩
        | f64 x =>
          simp [Global.new_mut, Global.from_type, Except.toOption, Val.comes_from_same_store] at h
          exact ⟨by rw [← h]; rfl, rfl⟩
        | funcRef f =>
          by_cases hst : (Val.funcRef f).comes_from_same_store store = true <;>
            simp [Global.new_mut, Global.from_type, Except.toOption, hst] at h
    have hgnum : g.ty.ty.isNum = true := by
      rw [hty.1]
      exact hty.2
    refine ⟨hgnum, ?_⟩
    cases hv : g.ty.ty <;> rw [hv] at hgnum <;> simp [Global.get, Global.ty] at hv ⊢ <;>
      first
        | (rw [hv]; rfl)
        | cases hgnum

/-- C8 witness: a funcref initial value is rejected and panics the
constructors, while `I32(7)` builds a global with total `get`. -/
theorem global_constructors_reject_nonnumeric_witness :
    (∃ e, Global.from_type 0 ⟨.funcRef, .const⟩ Val.null = .error e) ∧
    ((Global.new 0 Val.null = none ∧ Global.new_mut 0 Val.null = none) ∧
      ((⟨0, ⟨.i32, .const⟩, setLow 32 0 7⟩ : Global).ty.ty.isNum = true ∧
        (Global.get ⟨0, ⟨.i32, .const⟩, setLow 32 0 7⟩).isSome = true)) :=
  ⟨global_constructors_reject_nonnumeric.1 0 ⟨.funcRef, .const⟩ Val.null (Or.inl (by decide)),
    global_constructors_reject_nonnumeric.2.1 0 Val.null (Or.inl (by decide)),
    global_constructors_reject_nonnumeric.2.2 0 (.i32 7) ⟨0, ⟨.i32, .const⟩, setLow 32 0 7⟩
      (Or.inl (by decide))⟩

/-- C1: `Function::call` on a Wasm-defined function dispatches through the
forward trampoline and returns the results read back from the value array
(second conjunct), but its host arm is the empty `_ => {}` — the
`unimplemented!` is commented out — so a host-defined function's callable is
never invoked and `call` returns the untouched null result slots (first
conjunct), contradicting the function's own doc comment. -/
theorem call_host_arm_returns_without_invoking :
    Function.call (fun v => .ok v) ⟨0, .host, ⟨[], [.i32]⟩⟩ [] =
      (.ok [Val.null], false) ∧
    Function.call (fun v => .ok (v.set 0 42)) ⟨0, .wasm, ⟨[], [.i32]⟩⟩ [] =
      (.ok [.i32 42], true) := by
  exact ⟨rfl, rfl⟩

theorem writeParams_error_of_mismatch :
    ∀ (ps : List Val) (tys : List ValType) (vec : List Nat) (k : Nat),
      (∃ (j : Nat) (v : Val) (ty : ValType),
        ps[j]? = some v ∧ tys[j]? = some ty ∧ v.ty ≠ ty) →
      ∃ e, writeParams ps tys vec k = .error e := by
  intro ps
  induction ps with
  | nil =>
    rintro tys vec k ⟨j, v, ty, hv, -, -⟩
    simp at hv
  | cons p ps ih =>
    rintro tys vec k ⟨j, v, ty, hv, hty, hne⟩
    cases tys with
    | nil => simp at hty
    | cons ty0 tys =>
      by_cases hp : p.ty = ty0
      · cases j with
        | zero =>
          simp only [List.getElem?_cons_zero, Option.some.injEq] at hv hty
          subst hv; subst hty
          exact absurd hp hne
        | succ j =>
          simp only [List.getElem?_cons_succ] at hv hty
          obtain ⟨e, he⟩ := ih tys (vec.set k (p.write_value_to (vec.getD k 0)))
            (k + 1) ⟨j, v, ty, hv, hty, hne⟩
          refine ⟨e, ?_⟩
          simp only [writeParams]
          rw [if_neg (fun hc => hc hp)]
          exact he
      · exact ⟨.user "Parameters did not match signature", by simp [writeParams, hp]⟩

/-- C6: for a Wasm-defined function, a wrong argument count or a wrong
per-slot argument type makes `call` return an error without invoking the
trampoline (the guest is never entered); and `call_wasm` likewise checks the
result-slot count against the signature's result arity before dispatch. -/
theorem call_wasm_checks_before_dispatch :
    (∀ (tramp : TrampolineOracle) (f : Function) (params : List Val),
      f.definition = .wasm →
      (f.sig.params.length ≠ params.length ∨
        ∃ (j : Nat) (v : Val) (ty : ValType),
          params[j]? = some v ∧ f.sig.params[j]? = some ty ∧ v.ty ≠ ty) →
      ∃ e, Function.call tramp f params = (.error e, false)) ∧
    (∀ (tramp : TrampolineOracle) (f : Function) (params results : List Val),
      f.sig.results.length ≠ results.length →
      ∃ e, Function.call_wasm tramp f params results = (.error e, false)) := by
  constructor
  · intro tramp f params hw h
    simp only [Function.call, hw]
    rcases h with h | h
    · exact ⟨.user "expected arguments did not match signature",
        by simp [Function.call_wasm, h]⟩
    · by_cases hlen : f.sig.params.length = params.length
      · have hr : (List.replicate f.sig.results.length Val.null).length
            = f.sig.results.length := List.length_replicate _ _
        obtain ⟨e, he⟩ := writeParams_error_of_mismatch params f.sig.params
          (List.replicate (max params.length
            (List.replicate f.sig.results.length Val.null).length) 0) 0 h
        refine ⟨e, ?_⟩
        simp only [Function.call_wasm]
        rw [if_neg (fun hc => hc hlen), if_neg (fun hc => hc hr.symm), he]
      · exact ⟨.user "expected arguments did not match signature",
          by simp [Function.call_wasm, hlen]⟩
  · intro tramp f params results h
    by_cases hlen : f.sig.params.length = params.length
    · exact ⟨.user "expected results did not match signature",
        by simp [Function.call_wasm, hlen, h]⟩
    · exact ⟨.user "expected arguments did not match signature",
        by simp [Function.call_wasm, hlen]⟩

/-- C6 witness: an `I64` argument against an `(i32) → i32` Wasm function is
rejected without entering the trampoline, and a one-slot result buffer
against a no-result signature is rejected before dispatch. -/
theorem call_wasm_checks_before_dispatch_witness :
    (∃ e, Function.call (fun v => .ok v) ⟨0, .wasm, ⟨[.i32], [.i32]⟩⟩ [.i64 0] =
      (.error e, false)) ∧
    (∃ e, Function.call_wasm (fun v => .ok v) ⟨0, .wasm, ⟨[], []⟩⟩ [] [Val.null] =
      (.error e, false)) :=
  ⟨call_wasm_checks_before_dispatch.1 (fun v => .ok v) ⟨0, .wasm, ⟨[.i32], [.i32]⟩⟩
      [.i64 0] rfl (Or.inr ⟨0, .i64 0, .i32, rfl, rfl, by decide⟩),
    call_wasm_checks_before_dispatch.2 (fun v => .ok v) ⟨0, .wasm, ⟨[], []⟩⟩
      [] [Val.null] (by decide)⟩

theorem writeReturns_length : ∀ (rs : List Val) (vec : List Nat) (i : Nat),
    (writeReturns rs vec i).length = vec.length := by
  intro rs
  induction rs with
  | nil => intro vec i; rfl
  | cons r rs ih =>
    intro vec i
    rw [writeReturns, ih, List.length_set]

theorem writeReturns_getElem?_outside : ∀ (rs : List Val) (vec : List Nat) (i j : Nat),
    (j < i ∨ i + rs.length ≤ j) → (writeReturns rs vec i)[j]? = vec[j]? := by
  intro rs
  induction rs with
  | nil => intro vec i j _; rfl
  | cons r rs ih =>
    intro vec i j hj
    have hij : i ≠ j := by
      rcases hj with hj | hj
      · omega
      · simp only [List.length_cons] at hj; omega
    rw [writeReturns, ih _ (i + 1) j
      (by rcases hj with hj | hj
          · exact Or.inl (by omega)
          · exact Or.inr (by simp only [List.length_cons] at hj; omega)),
      List.getElem?_set_ne hij]

theorem writeReturns_getElem?_written :
    ∀ (rs : List Val) (vec : List Nat) (i j : Nat),
      j < rs.length → i + rs.length ≤ vec.length →
      (writeReturns rs vec i)[i + j]? =
        some ((rs.getD j Val.null).write_value_to (vec.getD (i + j) 0)) := by
  intro rs
  induction rs with
  | nil => intro vec i j hj _; simp at hj
  | cons r rs ih =>
    intro vec i j hj hv
    rw [writeReturns]
    cases j with
    | zero =>
      have hi : i < vec.length := by
        simp only [List.length_cons] at hv; omega
      simp only [Nat.add_zero]
      rw [writeReturns_getElem?_outside rs _ (i + 1) i (Or.inl (by omega)),
        List.getElem?_set_eq_of_lt _ hi]
      rfl
    | succ j =>
      have h1 : i + (j + 1) = (i + 1) + j := by omega
      have h2 : (i + 1) + rs.length ≤ (vec.set i (r.write_value_to (vec.getD i 0))).length := by
        rw [List.length_set]
        simp only [List.length_cons] at hv
        omega
      rw [h1, ih _ (i + 1) j (by simpa using hj) h2]
      have h3 : (vec.set i (r.write_value_to (vec.getD i 0))).getD ((i + 1) + j) 0
          = vec.getD ((i + 1) + j) 0 := by
        simp only [List.getD_eq_getElem?_getD]
        rw [List.getElem?_set_ne (by omega)]
      rw [h3]
      rfl

/-- C7: when the host callable behind the reverse trampoline returns
`Ok(returns)`, `func_wrapper` compares the returned value types against the
signature's results: on any mismatch it raises the wrong-signature
`RuntimeError` without writing the value array, and on an exact match it
writes each return into its slot (leaving the remaining slots untouched) and
returns normally. -/
theorem func_wrapper_checks_returned_signature
    (host : List Val → Except RuntimeError (List Val)) (func_ty : FunctionType)
    (vec : List Nat) (rets : List Val)
    (hlen : func_ty.results.length ≤ vec.length)
    (hcall : host (readArgs func_ty.params vec) = .ok rets) :
    (rets.map Val.ty ≠ func_ty.results →
      func_wrapper host func_ty vec =
        .userTrap (.user (wrongSigMsg func_ty.results (rets.map Val.ty)))) ∧
    (rets.map Val.ty = func_ty.results →
      func_wrapper host func_ty vec = .normal (writeReturns rets vec 0) ∧
      (∀ j, j < rets.length →
        (writeReturns rets vec 0).getD j 0 =
          (rets.getD j Val.null).write_value_to (vec.getD j 0)) ∧
      (∀ j, rets.length ≤ j →
        (writeReturns rets vec 0).getD j 0 = vec.getD j 0)) := by
  constructor
  · intro hne
    simp only [func_wrapper, hcall]
    rw [if_pos hne]
  · intro heq
    have hrl : rets.length = func_ty.results.length := by
      rw [← heq, List.length_map]
    refine ⟨?_, ?_, ?_⟩
    · simp only [func_wrapper, hcall]
      rw [if_neg (fun hc => hc heq)]
    · intro j hj
      have := writeReturns_getElem?_written rets vec 0 j hj (by omega)
      simp only [Nat.zero_add] at this
      simp only [List.getD_eq_getElem?_getD, this]
      rfl
    · intro j hj
      have := writeReturns_getElem?_outside rets vec 0 j (Or.inr (by omega))
      simp only [List.getD_eq_getElem?_getD, this]

/-- C7 witness: a host callable returning `[I32(7)]` against a `() → i32`
signature writes slot 0 and returns normally, and would trap on mismatch. -/
theorem func_wrapper_checks_returned_signature_witness :
    (([Val.i32 7].map Val.ty ≠ (⟨[], [.i32]⟩ : FunctionType).results →
      func_wrapper (fun _ => .ok [Val.i32 7]) ⟨[], [.i32]⟩ [0] =
        .userTrap (.user (wrongSigMsg (⟨[], [.i32]⟩ : FunctionType).results
          ([Val.i32 7].map Val.ty)))) ∧
    ([Val.i32 7].map Val.ty = (⟨[], [.i32]⟩ : FunctionType).results →
      func_wrapper (fun _ => .ok [Val.i32 7]) ⟨[], [.i32]⟩ [0] =
        .normal (writeReturns [Val.i32 7] [0] 0) ∧
      (∀ j, j < [Val.i32 7].length →
        (writeReturns [Val.i32 7] [0] 0).getD j 0 =
          ([Val.i32 7].getD j Val.null).write_value_to ([0].getD j 0)) ∧
      (∀ j, [Val.i32 7].length ≤ j →
        (writeReturns [Val.i32 7] [0] 0).getD j 0 = [0].getD j 0))) := by
  have h := func_wrapper_checks_returned_signature (fun _ => .ok [Val.i32 7])
    ⟨[], [.i32]⟩ [0] [Val.i32 7] (by decide) rfl
  exact ⟨h.1, h.2⟩

theorem into_checked_anyfunc_ok {v : Val} {s : StoreId} {item : Anyfunc}
    (h : v.into_checked_anyfunc s = .ok item) :
    v = .funcRef item ∧ v.comes_from_same_store s = true := by
  by_cases hst : v.comes_from_same_store s = true
  · cases v with
    | funcRef f =>
      refine ⟨?_, hst⟩
      simp only [Val.into_checked_anyfunc, hst] at h
      simp at h
      rw [h]
    | i32 b => simp [Val.into_checked_anyfunc, hst] at h
    | i64 b => simp [Val.into_checked_anyfunc, hst] at h
    | f32 b => simp [Val.into_checked_anyfunc, hst] at h
    | f64 b => simp [Val.into_checked_anyfunc, hst] at h
  · rw [Bool.not_eq_true] at hst
    simp [Val.into_checked_anyfunc, hst] at h

theorem runtimeTable_grow_ok {t : RuntimeTable} {delta : Nat}
    {rt : RuntimeTable} {len : Nat} (h : t.grow delta = some (rt, len)) :
    len = t.size + delta ∧ rt.elements = t.elements ++ List.replicate delta none ∧
      rt.size = t.size + delta := by
  simp only [RuntimeTable.grow] at h
  by_cases h32 : 2 ^ 32 ≤ t.size + delta
  · rw [if_pos h32] at h; cases h
  · rw [if_neg h32] at h
    by_cases hmax : (match t.maximum with
        | some m => decide (m < t.size + delta) | none => false) = true
    · rw [if_pos hmax] at h; cases h
    · rw [if_neg hmax] at h
      simp only [Option.some.injEq, Prod.mk.injEq] at h
      obtain ⟨hrt, hlen⟩ := h
      refine ⟨hlen.symm, by rw [← hrt], ?_⟩
      rw [← hrt]
      simp [RuntimeTable.size]

theorem fillItems_ok : ∀ (idxs : List Nat) (rt : RuntimeTable) (item : Anyfunc),
    (∀ i ∈ idxs, i < rt.size) →
    ∃ rt2, fillItems item rt idxs = (rt2, none) ∧
      rt2.size = rt.size ∧
      (∀ j, j ∈ idxs → rt2.elements[j]? = some item) ∧
      (∀ j, j ∉ idxs → rt2.elements[j]? = rt.elements[j]?) := by
  intro idxs
  induction idxs with
  | nil =>
    intro rt item _
    exact ⟨rt, rfl, rfl, by simp, fun j _ => rfl⟩
  | cons i rest ih =>
    intro rt item hb
    have hi : i < rt.elements.length := hb i (List.mem_cons_self i rest)
    have hset : set_table_item rt i item =
        .ok { rt with elements := rt.elements.set i item } := by
      simp [set_table_item, RuntimeTable.set, hi]
    have hb1 : ∀ k ∈ rest, k < ({ rt with elements := rt.elements.set i item } : RuntimeTable).size := by
      intro k hk
      have : ({ rt with elements := rt.elements.set i item } : RuntimeTable).size = rt.size := by
        simp [RuntimeTable.size, List.length_set]
      rw [this]
      exact hb k (List.mem_cons_of_mem _ hk)
    obtain ⟨rt2, hfill, hsz, hin, hout⟩ :=
      ih { rt with elements := rt.elements.set i item } item hb1
    refine ⟨rt2, ?_, ?_, ?_, ?_⟩
    · rw [fillItems, hset]
      exact hfill
    · rw [hsz]; simp [RuntimeTable.size, List.length_set]
    · intro j hj
      rcases List.mem_cons.mp hj with hj | hj
      · subst hj
        by_cases hjr : j ∈ rest
        · exact hin j hjr
        · rw [hout j hjr]
          exact List.getElem?_set_eq_of_lt item hi
      · exact hin j hj
    · intro j hj
      have hjne : i ≠ j := fun h => hj (h ▸ List.mem_cons_self i rest)
      have hjr : j ∉ rest := fun h => hj (List.mem_cons_of_mem _ h)
      rw [hout j hjr]
      exact List.getElem?_set_ne hjne

/-- C3 amended: when `Table::grow(delta, init)` returns `Ok(n)`, `n` is the
table's size AFTER the call (`prev + delta`, not the size before it), and
every index in the freshly added range `[n - delta, n) = [prev, prev + delta)`
reads back as the init value. -/
theorem table_grow_fills_and_returns_new_size (t : Table) (delta : Nat)
    (init : Val) (n : Nat) (h : (Table.grow t delta init).1 = .ok n) :
    n = t.size + delta ∧
    (Table.grow t delta init).2.size = n ∧
    ∀ i, t.size ≤ i → i < n → (Table.grow t delta init).2.get i = some init := by
  cases hck : init.into_checked_anyfunc t.store with
  | error e =>
    rw [Table.grow, hck] at h
    cases h
  | ok item =>
    obtain ⟨hini, -⟩ := into_checked_anyfunc_ok hck
    cases hg : t.table.grow delta with
    | none =>
      rw [Table.grow, hck, hg] at h
      cases h
    | some p =>
      obtain ⟨rt, len⟩ := p
      obtain ⟨hlen, helems, hsz⟩ := runtimeTable_grow_ok hg
      have hbounds : ∀ j ∈ (List.range delta).map fun i => len - (delta - i),
          j < rt.size := by
        intro j hj
        obtain ⟨i, hi, hji⟩ := List.mem_map.mp hj
        have hi2 : i < delta := List.mem_range.mp hi
        omega
      obtain ⟨rt2, hfill, hsz2, hin, -⟩ :=
        fillItems_ok ((List.range delta).map fun i => len - (delta - i)) rt item hbounds
      have hgrow : Table.grow t delta init = (.ok len, { t with table := rt2 }) := by
        simp only [Table.grow, hck, hg, hfill]
      rw [hgrow] at h
      have hn : len = n := Except.ok.inj h
      subst hn
      refine ⟨by rw [hlen]; rfl, ?_, ?_⟩
      · rw [hgrow]
        show rt2.size = len
        rw [hsz2, hsz, ← hlen]
      · intro i hlo hhi
        rw [hgrow]
        show Table.get { t with table := rt2 } i = some init
        have hmem : i ∈ (List.range delta).map fun k => len - (delta - k) := by
          refine List.mem_map.mpr ⟨i - t.size, List.mem_range.mpr ?_, ?_⟩
          · have ht : t.size = t.table.size := rfl
            omega
          · have ht : t.size = t.table.size := rfl
            omega
        have hget := hin i hmem
        simp only [Table.get, RuntimeTable.get]
        rw [hget, hini]
        rfl

/-- C3 counterexample: a table of size 1 grown by 2 returns `Ok(3)` — the new
size — while the claim says the `Ok` payload is the size before the call,
which is 1. -/
theorem table_grow_counterexample :
    (Table.grow ⟨0, true, ⟨none, [none]⟩⟩ 2 Val.null).1 = .ok 3 ∧
    Table.size ⟨0, true, ⟨none, [none]⟩⟩ = 1 ∧ (3 : Nat) ≠ 1 := by
  refine ⟨rfl, rfl, by decide⟩

/-- C3 witness: applying the amended statement to the size-1 table grown by
2 null elements: the returned 3 is `1 + 2`, and indices 1 and 2 read back as
the init value. -/
theorem table_grow_fills_and_returns_new_size_witness :
    (3 : Nat) = Table.size ⟨0, true, ⟨none, [none]⟩⟩ + 2 ∧
    (Table.grow ⟨0, true, ⟨none, [none]⟩⟩ 2 Val.null).2.size = 3 ∧
    (Table.grow ⟨0, true, ⟨none, [none]⟩⟩ 2 Val.null).2.get 1 = some Val.null ∧
    (Table.grow ⟨0, true, ⟨none, [none]⟩⟩ 2 Val.null).2.get 2 = some Val.null := by
  have h := table_grow_fills_and_returns_new_size ⟨0, true, ⟨none, [none]⟩⟩ 2
    Val.null 3 rfl
  exact ⟨h.1, h.2.1, h.2.2 1 (by decide) (by decide), h.2.2 2 (by decide) (by decide)⟩

/-- C4 amended: `Global::from_type` (hence `Global::new`/`new_mut`),
`Global::set`, `Table::copy`, `Table::set` and `Table::grow` all reject a
cross-store extern or value with a dedicated cross-store `RuntimeError`
(`Global::set` performs the store check after its mutability and type
checks, so the cross-store error surfaces once those pass) — but
`Function::call` is NOT among them: it checks only arity and types and
performs no store check on its arguments (see the counterexample). -/
theorem cross_store_operations_rejected :
    (∀ (store : StoreId) (ty : GlobalType) (v : Val),
      v.comes_from_same_store store = false →
      Global.from_type store ty v =
        .error (.user "cross-`Store` globals are not supported")) ∧
    (∀ (g : Global) (v : Val), g.ty.mutability = .var → v.ty = g.ty.ty →
      v.comes_from_same_store g.store = false →
      g.set v = some (.error (.user "cross-`Store` values are not supported"), g)) ∧
    (∀ (dst : Table) (di : Nat) (src : Table) (si len : Nat),
      dst.store ≠ src.store →
      Table.copy dst di src si len =
        .error (.user "cross-`Store` table copies are not supported")) ∧
    (∀ (t : Table) (i : Nat) (v : Val), v.comes_from_same_store t.store = false →
      Table.set t i v =
        (.error (.user "cross-`Store` values are not supported"), t)) ∧
    (∀ (t : Table) (delta : Nat) (v : Val),
      v.comes_from_same_store t.store = false →
      Table.grow t delta v =
        (.error (.user "cross-`Store` values are not supported"), t)) := by
  have hanyfunc : ∀ (v : Val) (s : StoreId), v.comes_from_same_store s = false →
      v.into_checked_anyfunc s =
        .error (.user "cross-`Store` values are not supported") := by
    intro v s h
    simp [Val.into_checked_anyfunc, h]
  refine ⟨?_, ?_, ?_, ?_, ?_⟩
  · intro store ty v h
    simp [Global.from_type, h]
  · intro g v hmut hty h
    simp [Global.set, hmut, hty, h]
  · intro dst di src si len h
    simp [Table.copy, h]
  · intro t i v h
    simp [Table.set, hanyfunc v t.store h]
  · intro t delta v h
    simp [Table.grow, hanyfunc v t.store h]

/-- C4 counterexample: `Function::call` on a store-2 function whose signature
takes a funcref accepts a funcref belonging to store 1 — it dispatches to the
trampoline and succeeds instead of returning a cross-store error, because
`call_wasm` never checks the store of its arguments. -/
theorem function_call_accepts_cross_store_argument :
    Function.call (fun v => .ok v) ⟨2, .wasm, ⟨[.funcRef], []⟩⟩
      [.funcRef (some ⟨1⟩)] = (.ok [], true) ∧
    (Val.funcRef (some ⟨1⟩)).comes_from_same_store 2 = false := by
  exact ⟨rfl, rfl⟩

/-- C4 witness: concrete cross-store rejections for each checked operation. -/
theorem cross_store_operations_rejected_witness :
    Global.from_type 1 ⟨.funcRef, .const⟩ (.funcRef (some ⟨0⟩)) =
      .error (.user "cross-`Store` globals are not supported") ∧
    Table.copy ⟨0, true, ⟨none, []⟩⟩ 0 ⟨1, true, ⟨none, []⟩⟩ 0 0 =
      .error (.user "cross-`Store` table copies are not supported") ∧
    Table.grow ⟨1, true, ⟨none, []⟩⟩ 1 (.funcRef (some ⟨0⟩)) =
      (.error (.user "cross-`Store` values are not supported"),
        ⟨1, true, ⟨none, []⟩⟩) :=
  ⟨cross_store_operations_rejected.1 1 ⟨.funcRef, .const⟩ (.funcRef (some ⟨0⟩)) rfl,
    cross_store_operations_rejected.2.2.1 ⟨0, true, ⟨none, []⟩⟩ 0
      ⟨1, true, ⟨none, []⟩⟩ 0 0 (by decide),
    cross_store_operations_rejected.2.2.2.2 ⟨1, true, ⟨none, []⟩⟩ 1
      (.funcRef (some ⟨0⟩)) rfl⟩

theorem copyBytes_length : ∀ (n : Nat) (dst : List Nat) (off : Nat) (src : List Nat),
    (copyBytes dst off src n).length = dst.length := by
  intro n
  induction n with
  | zero => intro dst off src; rfl
  | succ n ih =>
    intro dst off src
    rw [copyBytes, List.length_set, ih]

theorem copyBytes_getElem?_written : ∀ (n : Nat) (dst : List Nat) (off : Nat)
    (src : List Nat) (j : Nat), j < n → off + n ≤ dst.length →
    (copyBytes dst off src n)[off + j]? = some (src.getD j 0) := by
  intro n
  induction n with
  | zero => intro dst off src j hj _; omega
  | succ n ih =>
    intro dst off src j hj hb
    rw [copyBytes]
    by_cases hjn : j = n
    · subst hjn
      have hlt : off + j < (copyBytes dst off src j).length := by
        rw [copyBytes_length]; omega
      exact List.getElem?_set_eq_of_lt _ hlt
    · rw [List.getElem?_set_ne (by omega)]
      exact ih dst off src j (by omega) (by omega)

/-- C9 amended: for non-degenerate inputs — a non-empty buffer
(`1 ≤ buffer_len`), a non-empty memory, and no 32-bit overflow of
`mem_offset + buffer_len` — the bounds computations of
`wasmer_memory_data_copy` do not wrap, the call succeeds exactly when the
destination range fits the memory's byte length, an error leaves the memory
untouched, and success copies the buffer into place.  The unrestricted claim
is false: `buffer_len = 0` underflows `buffer_len - 1`, and a large
`mem_offset` overflows `mem_offset + (buffer_len - 1)`, letting an
out-of-bounds copy through (see the counterexample). -/
theorem memory_data_copy_bounds (mem : CMemory) (mem_offset : Nat)
    (buffer : List Nat) (buffer_len : Nat)
    (hbytes : mem.bytes.length = mem.pages * 65536)
    (hd32 : mem.pages * 65536 < 2 ^ 32)
    (hp : 1 ≤ mem.pages)
    (hb : 1 ≤ buffer_len)
    (hno : mem_offset + buffer_len ≤ 2 ^ 32) :
    (wasmer_memory_data_copy mem mem_offset buffer buffer_len).arithWrapped = false ∧
    ((wasmer_memory_data_copy mem mem_offset buffer buffer_len).ok = true ↔
      mem_offset + buffer_len ≤ mem.pages * 65536) ∧
    ((wasmer_memory_data_copy mem mem_offset buffer buffer_len).ok = false →
      (wasmer_memory_data_copy mem mem_offset buffer buffer_len).mem = mem) ∧
    ((wasmer_memory_data_copy mem mem_offset buffer buffer_len).ok = true →
      (wasmer_memory_data_copy mem mem_offset buffer buffer_len).mem.bytes.length
          = mem.bytes.length ∧
      ∀ j, j < buffer_len →
        (wasmer_memory_data_copy mem mem_offset buffer buffer_len).mem.bytes.getD
          (mem_offset + j) 0 = buffer.getD j 0) := by
  have e32 : (2 : Nat) ^ 32 = 4294967296 := by norm_num
  have hdl : wasmer_memory_data_length mem = mem.pages * 65536 := by
    rw [wasmer_memory_data_length]
    exact Nat.mod_eq_of_lt hd32
  have hwrap : ((wasmer_memory_data_length mem == 0) || (buffer_len == 0) ||
      decide (2 ^ 32 ≤ mem_offset + (buffer_len + 2 ^ 32 - 1) % 2 ^ 32)) = false := by
    simp only [hdl, e32, Bool.or_eq_false_iff, beq_eq_false_iff_ne, ne_eq,
      decide_eq_false_iff_not]
    rw [e32] at hd32 hno
    refine ⟨⟨?_, ?_⟩, ?_⟩ <;> omega
  have hcond : ((wasmer_memory_data_length mem + 2 ^ 32 - 1) % 2 ^ 32 <
      (mem_offset + (buffer_len + 2 ^ 32 - 1) % 2 ^ 32) % 2 ^ 32) ↔
      mem.pages * 65536 < mem_offset + buffer_len := by
    rw [hdl, e32]
    rw [e32] at hd32 hno
    constructor <;> intro h <;> omega
  by_cases hoob : mem.pages * 65536 < mem_offset + buffer_len
  · have hres : wasmer_memory_data_copy mem mem_offset buffer buffer_len =
        ⟨false, mem, (wasmer_memory_data_length mem == 0) || (buffer_len == 0) ||
          decide (2 ^ 32 ≤ mem_offset + (buffer_len + 2 ^ 32 - 1) % 2 ^ 32)⟩ := by
      simp only [wasmer_memory_data_copy]
      rw [if_pos (hcond.mpr hoob)]
    rw [hres]
    refine ⟨hwrap, ?_, fun _ => rfl, ?_⟩
    · constructor
      · intro h; exact Bool.noConfusion h
      · intro h; exact absurd h (by omega)
    · intro h; exact Bool.noConfusion h
  · have hres : wasmer_memory_data_copy mem mem_offset buffer buffer_len =
        ⟨true, { mem with bytes := copyBytes mem.bytes mem_offset buffer buffer_len },
          (wasmer_memory_data_length mem == 0) || (buffer_len == 0) ||
          decide (2 ^ 32 ≤ mem_offset + (buffer_len + 2 ^ 32 - 1) % 2 ^ 32)⟩ := by
      simp only [wasmer_memory_data_copy]
      rw [if_neg (fun hc => hoob (hcond.mp hc))]
    rw [hres]
    refine ⟨hwrap, ?_, ?_, fun _ => ⟨?_, ?_⟩⟩
    · constructor
      · intro _; omega
      · intro _; rfl
    · intro h; exact Bool.noConfusion h
    · exact copyBytes_length buffer_len mem.bytes mem_offset buffer
    · intro j hj
      have hfit : mem_offset + buffer_len ≤ mem.bytes.length := by omega
      have := copyBytes_getElem?_written buffer_len mem.bytes mem_offset buffer j hj hfit
      simp only [List.getD_eq_getElem?_getD, this]
      rfl

/-- C9 counterexample: `buffer_len = 0` makes `buffer_len - 1` underflow (the
call is rejected even though an empty copy is trivially in bounds), and
`mem_offset = 2^32 - 1` with `buffer_len = 2` makes
`mem_offset + (buffer_len - 1)` wrap to 0, so the bounds check passes and an
out-of-bounds copy is performed. -/
theorem memory_data_copy_wraps_counterexample :
    (wasmer_memory_data_copy ⟨1, List.replicate 65536 0⟩ 0 [] 0).arithWrapped = true ∧
    (wasmer_memory_data_copy ⟨1, List.replicate 65536 0⟩ 0 [] 0).ok = false ∧
    (wasmer_memory_data_copy ⟨1, List.replicate 65536 0⟩ 4294967295 [7, 7] 2).ok
      = true ∧
    (4294967295 + 2 > 1 * 65536) := by
  exact ⟨rfl, rfl, rfl, by norm_num⟩

/-- C9 witness: copying a 3-byte buffer at offset 5 into a one-page memory
does not wrap, succeeds, and lands the bytes at offsets 5, 6, 7. -/
theorem memory_data_copy_bounds_witness :
    (wasmer_memory_data_copy ⟨1, List.replicate 65536 0⟩ 5 [1, 2, 3] 3).arithWrapped
      = false ∧
    ((wasmer_memory_data_copy ⟨1, List.replicate 65536 0⟩ 5 [1, 2, 3] 3).ok = true ↔
      5 + 3 ≤ 1 * 65536) ∧
    ((wasmer_memory_data_copy ⟨1, List.replicate 65536 0⟩ 5 [1, 2, 3] 3).ok = false →
      (wasmer_memory_data_copy ⟨1, List.replicate 65536 0⟩ 5 [1, 2, 3] 3).mem =
        ⟨1, List.replicate 65536 0⟩) ∧
    ((wasmer_memory_data_copy ⟨1, List.replicate 65536 0⟩ 5 [1, 2, 3] 3).ok = true →
      (wasmer_memory_data_copy ⟨1, List.replicate 65536 0⟩ 5 [1, 2, 3] 3).mem.bytes.length
          = (List.replicate 65536 0).length ∧
      ∀ j, j < 3 →
        (wasmer_memory_data_copy ⟨1, List.replicate 65536 0⟩ 5 [1, 2, 3] 3).mem.bytes.getD
          (5 + j) 0 = [1, 2, 3].getD j 0) :=
  memory_data_copy_bounds ⟨1, List.replicate 65536 0⟩ 5 [1, 2, 3] 3
    (by rw [List.length_replicate]; norm_num) (by norm_num) (by norm_num)
    (by norm_num) (by norm_num)

/-- C2 amended: `CompiledModule::deserialize` performs no magic-header or
version validation at all — it hands the whole byte buffer to the bincode
decoder, maps a decode failure to `DeserializeError::CorruptedBinary` (not
`InvalidBinary`), and maps a `from_parts` failure to
`DeserializeError::Compiler`; whatever the decoder and `from_parts` do, no
input ever produces `DeserializeError::InvalidBinary`. -/
theorem deserialize_never_invalid_binary :
    (∀ (dec : List Nat → Option SerializableModule)
        (fp : SerializableModule → Except CompileError CompiledModule)
        (bytes : List Nat) (e : DeserializeError),
      CompiledModule.deserialize dec fp bytes = .error e →
      ((∃ msg, e = .corruptedBinary msg) ∨ ∃ ce, e = .compiler ce) ∧
        e ≠ .invalidBinary) ∧
    (∀ (dec : List Nat → Option SerializableModule)
        (fp : SerializableModule → Except CompileError CompiledModule)
        (bytes : List Nat), dec bytes = none →
      CompiledModule.deserialize dec fp bytes =
        .error (.corruptedBinary "deserialize error")) := by
  constructor
  · intro dec fp bytes e h
    cases hdec : dec bytes with
    | none =>
      simp only [CompiledModule.deserialize, hdec] at h
      have he : DeserializeError.corruptedBinary "deserialize error" = e :=
        Except.error.inj h
      refine ⟨Or.inl ⟨"deserialize error", he.symm⟩, ?_⟩
      rw [← he]
      intro hc
      cases hc
    | some s =>
      simp only [CompiledModule.deserialize, hdec] at h
      cases hfp : fp s with
      | error ce =>
        simp only [hfp] at h
        have he : DeserializeError.compiler ce = e := Except.error.inj h
        refine ⟨Or.inr ⟨ce, he.symm⟩, ?_⟩
        rw [← he]
        intro hc
        cases hc
      | ok m =>
        simp only [hfp] at h
        exact Except.noConfusion h
  · intro dec fp bytes h
    simp only [CompiledModule.deserialize, h]

/-- C2 counterexample: with a decoder that fails on the empty buffer (as the
external bincode decoder does for this structure), `deserialize` on `[]` — a
byte sequence that certainly does not begin with any magic header — returns
`CorruptedBinary`, not the `InvalidBinary` the claim requires. -/
theorem deserialize_empty_is_corrupted_not_invalid :
    CompiledModule.deserialize (fun _ => none) (fun s => .ok ⟨s⟩) [] =
      .error (.corruptedBinary "deserialize error") ∧
    DeserializeError.corruptedBinary "deserialize error" ≠ .invalidBinary := by
  refine ⟨rfl, ?_⟩
  intro h
  cases h

/-- C2 witness: the decode-failure branch at a concrete input. -/
theorem deserialize_never_invalid_binary_witness :
    CompiledModule.deserialize (fun _ => none) (fun s => .ok ⟨s⟩) [42] =
      .error (.corruptedBinary "deserialize error") :=
  deserialize_never_invalid_binary.2 (fun _ => none) (fun s => .ok ⟨s⟩) [42] rfl

/-- C10: after `Module::set_name(n)`, `Module::name` returns `Some(n)`
whatever name the descriptor carried before; and a module whose descriptor
has no bytecode-provided name (and on which `set_name` was never called)
reports `None`. -/
theorem module_set_name_overrides :
    (∀ (m : Module) (n : String), (m.set_name n).name = some n) ∧
    (∀ (store : StoreId) (c : CompiledModule), c.module.name = none →
      (Module.from_compiled_module store c).name = none) := by
  constructor
  · intro m n
    rfl
  · intro store c h
    exact h

/-- C10 witness: setting the name of a module built from a nameless
descriptor, and reading the name of an untouched one. -/
theorem module_set_name_overrides_witness :
    (Module.set_name ⟨0, ⟨⟨⟨some "orig"⟩⟩⟩⟩ "foo").name = some "foo" ∧
    (Module.from_compiled_module 0 ⟨⟨⟨none⟩⟩⟩).name = none :=
  ⟨module_set_name_overrides.1 ⟨0, ⟨⟨⟨some "orig"⟩⟩⟩⟩ "foo",
    module_set_name_overrides.2 0 ⟨⟨⟨none⟩⟩⟩ rfl⟩

end Wasmer
